import Mathlib

/-!
Verification of the PixelTwin web-cloner repository against its
natural-language specification.

The frontend components (CloneForm, UrlForm, Home, the clone stream API
route, CloneResult) are embedded directly from the TypeScript sources.
The backend pipeline (Capture Engine, Consolidator, Prompt Assembler,
Generation Orchestrator, Validator) is a Python FastAPI service whose
sources are not available here; those components are modelled from the
specification, as marked on each definition.
-/

namespace PixelTwin

/-! ## String helpers shared by the embeddings -/

/-- Case folding of a whole string, character by character. -/
def lowerStr (s : String) : String :=
  String.mk (s.data.map Char.toLower)

/-- Embedding of JavaScript `String.prototype.startsWith`. -/
def strStartsWith (s p : String) : Bool :=
  p.data.isPrefixOf s.data

/-- Substring search on character lists (used to embed `includes`-style checks). -/
def containsSeq (pat : List Char) : List Char → Bool
  | [] => pat.isEmpty
  | c :: cs => pat.isPrefixOf (c :: cs) || containsSeq pat cs

/-- Whether `p` occurs as a contiguous substring of `s`. -/
def strContainsStr (s p : String) : Bool :=
  containsSeq p.data s.data

/-- Embedding of JavaScript `String.prototype.trim`: strip whitespace from
both ends. -/
def jsTrim (s : String) : String :=
  String.mk (((s.data.dropWhile Char.isWhitespace).reverse.dropWhile Char.isWhitespace).reverse)

lemma strStartsWith_self_append (p t : String) : strStartsWith (p ++ t) p = true := by
  unfold strStartsWith
  rw [String.data_append]
  exact List.isPrefixOf_iff_prefix.mpr ( List.prefix_append p.data t.data)

lemma strStartsWith_append_of {s p : String} (t : String)
    (h : strStartsWith s p = true) : strStartsWith (s ++ t) p = true := by
  unfold strStartsWith at h ⊢
  rw [String.data_append]
  exact List.isPrefixOf_iff_prefix.mpr
    (( List.isPrefixOf_iff_prefix.mp h).trans ( List.prefix_append s.data t.data))

lemma lowerStr_append (a b : String) : lowerStr (a ++ b) = lowerStr a ++ lowerStr b := by
  unfold lowerStr
  apply String.ext
  simp [String.data_append]

lemma string_eq_iff_data (a b : String) : a = b ↔ a.data = b.data := String.ext_iff

lemma append_ne_empty_left {p : String} (t : String) (h : p ≠ "") : p ++ t ≠ "" := by
  intro hc
  apply h
  have hd : (p ++ t).data = ([] : List Char) := by rw [hc]
  rw [String.data_append] at hd
  rcases List.append_eq_nil.mp hd with ⟨h1, _⟩
  exact String.ext h1

lemma strStartsWith_ne_empty {s p : String} (h : strStartsWith s p = true) (hp : p ≠ "") :
    s ≠ "" := by
  intro hc
  subst hc
  unfold strStartsWith at h
  have h2 := List.isPrefixOf_iff_prefix.mp h
  have : p.data = [] := List.prefix_nil.mp h2
  exact hp (String.ext this)

lemma strContainsStr_ne_empty {s p : String} (h : strContainsStr s p = true) (hp : p ≠ "") :
    s ≠ "" := by
  intro hc
  subst hc
  unfold strContainsStr containsSeq at h
  have : p.data = [] := by
    cases hpd : p.data with
    | nil => rfl
    | cons c cs => simp [List.isEmpty, hpd] at h
  exact hp (String.ext this)

lemma lowerStr_ne_empty {s : String} (h : lowerStr s ≠ "") : s ≠ "" := by
  intro hc
  subst hc
  exact h rfl

/-! ## CloneForm (src/frontend/components/CloneForm.tsx) and UrlForm
(src/frontend/src/components/Toast.tsx, second component) — both submit
handlers share the same logic, embedded once. -/

namespace CloneForm

/-- Embedding of the regex test `/^https?:\/\//i.test(formattedUrl)`:
the string starts, case-insensitively, with "http://" or "https://". -/
def schemeRegexTest (s : String) : Bool :=
  strStartsWith (lowerStr s) "http://" || strStartsWith (lowerStr s) "https://"

/-- Embedding of `handleSubmit`: returns the URL passed to `onSubmit`,
or `none` when the handler returns early because the trimmed input is empty. -/
def handleSubmit (url : String) : Option String :=
  if jsTrim url = "" then none
  else if schemeRegexTest (jsTrim url) then some (jsTrim url)
  else some ("https://" ++ jsTrim url)

lemma lowerStr_https_prepend (t : String) :
    lowerStr ("https://" ++ t) = "https://" ++ lowerStr t := by
  rw [lowerStr_append]
  have : lowerStr "https://" = "https://" := by decide
  rw [this]

lemma schemeRegexTest_https_prepend (t : String) :
    schemeRegexTest ("https://" ++ t) = true := by
  unfold schemeRegexTest
  rw [lowerStr_https_prepend]
  have h := strStartsWith_self_append "https://" (lowerStr t)
  simp [h]

end CloneForm

/-! ## Home page state (src/unnamed/part_005 and part_006, `Home` component) -/

namespace Home

/-- Shape of the backend response consumed by the Home page
(`result.clone_html`, `result.images` in CloneResult.tsx). -/
structure CloneResponse where
  clone_html : String
  images : List String
deriving DecidableEq

/-- React state of the `Home` component that `handleClone` touches. -/
structure HomeState where
  cloneResult : Option CloneResponse
  error : Option String
  isLoading : Bool
  originalUrl : String
deriving DecidableEq

/-- Outcome of the awaited `cloneWebsite(url)` call: it either resolves
with a response or throws with a message. -/
inductive FetchOutcome where
  | ok (r : CloneResponse)
  | err (msg : String)

/-- Embedding of `handleClone`: reset `error` and `cloneResult` to null and
record the URL, then either store the result or store the error message;
`finally` clears the loading flag. -/
def handleClone (s : HomeState) (url : String) (o : FetchOutcome) : HomeState :=
  let s1 : HomeState :=
    { s with isLoading := true, error := none, cloneResult := none, originalUrl := url }
  match o with
  | .ok r => { s1 with cloneResult := some r, isLoading := false }
  | .err m => { s1 with error := some m, isLoading := false }

end Home

/-! ## Clone stream API route (src/frontend/app/api/clone/stream/route.ts) -/

namespace StreamRoute

/-- JSON body of a `NextResponse.json` call in the route handler. -/
inductive RBody where
  | jsonError (msg : String)
  | jsonData (payload : String)
deriving DecidableEq

/-- An HTTP response produced by the route handler. -/
structure ApiResponse where
  status : Nat
  body : RBody
deriving DecidableEq

/-- Result of the forwarding `fetch` to the FastAPI backend together with
the decoded JSON body (`response.ok`, `response.status`, `errorData.detail`,
or the success payload). -/
structure BackendReply where
  ok : Bool
  status : Nat
  errorDetail : Option String
  payload : String

/-- JavaScript truthiness of the extracted `url` field: `undefined`, `null`
and the empty string are falsy. -/
def isTruthy : Option String → Bool
  | none => false
  | some u => !(u == "")

/-- Embedding of the route `POST` handler. `parsed` is the outcome of
`await request.json()` reduced to its `url` field (`.error` when parsing
throws); `backendFetch` is the forwarding fetch plus body decoding
(`.error` when either throws). The second component records whether the
forwarding fetch was issued. -/
def POST (parsed : Except Unit (Option String))
    (backendFetch : String → Except Unit BackendReply) : ApiResponse × Bool :=
  match parsed with
  | .error _ => ({ status := 500, body := .jsonError "Internal server error" }, false)
  | .ok urlField =>
    if isTruthy urlField then
      match backendFetch (urlField.getD "") with
      | .error _ => ({ status := 500, body := .jsonError "Internal server error" }, true)
      | .ok reply =>
        if reply.ok then
          ({ status := 200, body := .jsonData reply.payload }, true)
        else
          ({ status := reply.status,
             body := .jsonError (reply.errorDetail.getD "Failed to clone website") }, true)
    else
      ({ status := 400, body := .jsonError "URL is required" }, false)

end StreamRoute

/-! ## CloneResult HTML processing (src/frontend/components/CloneResult.tsx) -/

namespace CloneResultView

/-- Drop everything up to and including the first newline. -/
def dropFirstLine (cs : List Char) : List Char :=
  match cs.dropWhile (fun c => !(c == Char.ofNat 10)) with
  | [] => []
  | _ :: r => r

/-- Drop a trailing markdown fence (three backticks), if present, after
trailing whitespace. -/
def dropTrailingFence (cs : List Char) : List Char :=
  let r := cs.reverse.dropWhile Char.isWhitespace
  if "```".data.isPrefixOf r then (r.drop 3).reverse else cs

/-- Modelled from the spec: `extractHtmlContent` lives in `frontend/lib/utils`,
which is not among the available sources. Per the README it strips the
markdown code fences a model may wrap around the returned HTML. -/
def extractHtmlContent (s : String) : String :=
  let t := jsTrim s
  if strStartsWith t "```" then String.mk (dropTrailingFence (dropFirstLine t.data))
  else t

/-- Modelled from the spec: `isValidHtml` lives in `frontend/lib/utils`,
which is not among the available sources. The content must look like an HTML
document: it contains an `<html` root tag or starts with a doctype. -/
def isValidHtml (s : String) : Bool :=
  strContainsStr (lowerStr s) "<html" || strStartsWith (lowerStr s) "<!doctype"

/-- Embedding (condensed) of the substitute error document built in the
CloneResult `useEffect` when validation fails; structure and dynamic parts
follow the source template. -/
def htmlProcessingErrorDoc (extracted : String) (originalLen : Nat) : String :=
  "<html><body style=\"font-family: Arial, sans-serif; padding: 20px; background: #f5f5f5;\">" ++
  "<h2 style=\"color: #e53e3e;\">HTML Processing Error</h2>" ++
  "<p>The cloned content doesn\x27t appear to be valid HTML. Raw content:</p><pre>" ++
  String.mk (extracted.data.take 1000) ++
  (if 1000 < extracted.data.length then "..." else "") ++
  "</pre><ul><li>Original length: " ++ Nat.repr originalLen ++
  "</li><li>Extracted length: " ++ Nat.repr extracted.data.length ++
  "</li></ul></body></html>"

/-- Embedding of the CloneResult `useEffect` body: extract, validate, and on
failure substitute the non-empty error document; returns the processed HTML
and the `htmlError` state. -/
def processCloneHtml (clone_html : String) : String × Option String :=
  let extracted := extractHtmlContent clone_html
  if isValidHtml extracted then (extracted, none)
  else (htmlProcessingErrorDoc extracted clone_html.data.length,
        some "The cloned content doesn\x27t appear to be valid HTML")

lemma isValidHtml_ne_empty {s : String} (h : isValidHtml s = true) : s ≠ "" := by
  unfold isValidHtml at h
  rcases Bool.or_eq_true_iff.mp h with h1 | h2
  · exact lowerStr_ne_empty (strContainsStr_ne_empty h1 (by decide))
  · exact lowerStr_ne_empty (strStartsWith_ne_empty h2 (by decide))

lemma processCloneHtml_ne_empty (clone_html : String) :
    (processCloneHtml clone_html).1 ≠ "" := by
  unfold processCloneHtml
  by_cases h : isValidHtml (extractHtmlContent clone_html) = true
  · simpa [h] using isValidHtml_ne_empty h
  · simp only [Bool.not_eq_true] at h
    simp only [h, Bool.false_eq_true, if_false]
    unfold htmlProcessingErrorDoc
    repeat apply append_ne_empty_left
    decide

/-- Embedding of the iframe `onLoad` minimal-content check: an element is
counted when it bears trimmed text or is an `img`; the preview is flagged
when the body text is shorter than 50 characters or fewer than 5 such
elements exist. -/
def minimalContentWarning (bodyTextLen visibleElementCount : Nat) : Bool :=
  decide (bodyTextLen < 50) || decide (visibleElementCount < 5)

end CloneResultView

/-! ## Backend data model, modelled from the specification (§3).
The Capture Engine, Consolidator, Prompt Assembler, Generation Orchestrator
and Validator are part of the Python FastAPI backend, which is not among the
available sources. -/

namespace Backend

/-- Modelled from the spec: kind tag of an asset reference. -/
inductive AssetKind where
  | image
  | font
  | stylesheet
deriving DecidableEq

/-- Modelled from the spec: an absolute, dereferenceable URL plus a kind tag.
The `decorative` flag records the §4.3 classification used by the Prompt
Assembler truncation order. -/
structure AssetRef where
  url : String
  kind : AssetKind
  decorative : Bool
deriving DecidableEq

/-- Modelled from the spec: one rendered DOM element as seen by the headless
renderer before capture — raw (possibly relative) asset URLs, rendered area
and display:none flag for pruning. -/
inductive RawNode where
  | node (tag : String) (text : String) (props : List (String × String))
      (rawAssets : List (String × AssetKind × Bool)) (area : Nat) (displayNone : Bool)
      (children : List RawNode)

/-- Modelled from the spec: one rendered DOM element's visual snapshot in the
VisualManifest (tag role, text, resolved computed style properties, asset
attachments, owned children). -/
inductive StyleNode where
  | node (tag : String) (text : String) (props : List (String × String))
      (assets : List AssetRef) (children : List StyleNode)

def StyleNode.tag : StyleNode → String
  | .node t _ _ _ _ => t

def StyleNode.text : StyleNode → String
  | .node _ t _ _ _ => t

def StyleNode.props : StyleNode → List (String × String)
  | .node _ _ p _ _ => p

def StyleNode.assets : StyleNode → List AssetRef
  | .node _ _ _ a _ => a

def StyleNode.childNodes : StyleNode → List StyleNode
  | .node _ _ _ _ c => c

/-- Modelled from the spec: root StyleNode plus global metadata. -/
structure VisualManifest where
  title : String
  viewport : Nat × Nat
  rawStylesheets : List String
  root : StyleNode
  assets : List AssetRef

/-! ### Capture Engine (§4.1), modelled from the spec -/

/-- Modelled from the spec: a URL is absolute when it carries an explicit
scheme (http, https or data). Protocol-relative and path-relative URLs are
not absolute. -/
def isAbsoluteUrl (u : String) : Bool :=
  strStartsWith (lowerStr u) "http://" || strStartsWith (lowerStr u) "https://" ||
    strStartsWith (lowerStr u) "data:"

/-- Scheme of the capture base, used to complete protocol-relative URLs. -/
def schemeOf (base : String) : String :=
  if strStartsWith (lowerStr base) "https://" then "https:" else "http:"

/-- Modelled from the spec: rewrite a reference to an absolute URL using
the page's resolved base at capture time. -/
def resolveUrl (base : String) (u : String) : String :=
  if isAbsoluteUrl u then u
  else if strStartsWith u "//" then schemeOf base ++ u
  else base ++ u

lemma strStartsWith_lower_of {u p : String} (hp : lowerStr p = p)
    (h : strStartsWith u p = true) : strStartsWith (lowerStr u) p = true := by
  unfold strStartsWith at h ⊢
  obtain ⟨t, ht⟩ := List.isPrefixOf_iff_prefix.mp h
  apply List.isPrefixOf_iff_prefix.mpr
  refine ⟨t.map Char.toLower, ?_⟩
  have hpd : p.data.map Char.toLower = p.data := by
    have := congrArg String.data hp
    simpa [lowerStr] using this
  calc p.data ++ t.map Char.toLower
      = p.data.map Char.toLower ++ t.map Char.toLower := by rw [hpd]
    _ = (p.data ++ t).map Char.toLower := by rw [List.map_append]
    _ = (lowerStr u).data := by rw [ht]; rfl

lemma strStartsWith_sch_slashes (sch u : String) (h : strStartsWith u "//" = true) :
    strStartsWith (sch ++ u) (sch ++ "//") = true := by
  unfold strStartsWith at h ⊢
  obtain ⟨t, ht⟩ := List.isPrefixOf_iff_prefix.mp h
  apply List.isPrefixOf_iff_prefix.mpr
  refine ⟨t, ?_⟩
  rw [String.data_append, String.data_append, List.append_assoc, ht]

/-- Key Capture Engine invariant: URL resolution against an absolute base
always yields an absolute URL. -/
lemma resolveUrl_absolute {base : String} (u : String)
    (hbase : isAbsoluteUrl base = true) : isAbsoluteUrl (resolveUrl base u) = true := by
  unfold resolveUrl
  by_cases habs : isAbsoluteUrl u = true
  · simp [habs]
  · rw [if_neg (by simp [habs])]
    by_cases hpr : strStartsWith u "//" = true
    · rw [if_pos hpr]
      have hlow : strStartsWith (lowerStr u) "//" = true :=
        strStartsWith_lower_of (by decide) hpr
      unfold schemeOf
      by_cases hs : strStartsWith (lowerStr base) "https://" = true
      · rw [if_pos hs]
        have h1 : lowerStr ("https:" ++ u) = "https:" ++ lowerStr u := by
          rw [lowerStr_append]
          have : lowerStr "https:" = "https:" := by decide
          rw [this]
        have h2 := strStartsWith_sch_slashes "https:" (lowerStr u) hlow
        have h3 : ("https:" ++ "//" : String) = "https://" := by decide
        rw [h3] at h2
        unfold isAbsoluteUrl
        rw [h1, h2]
        simp
      · rw [if_neg hs]
        have h1 : lowerStr ("http:" ++ u) = "http:" ++ lowerStr u := by
          rw [lowerStr_append]
          have : lowerStr "http:" = "http:" := by decide
          rw [this]
        have h2 := strStartsWith_sch_slashes "http:" (lowerStr u) hlow
        have h3 : ("http:" ++ "//" : String) = "http://" := by decide
        rw [h3] at h2
        unfold isAbsoluteUrl
        rw [h1, h2]
        simp
    · rw [if_neg hpr]
      unfold isAbsoluteUrl at hbase ⊢
      rw [lowerStr_append]
      rcases Bool.or_eq_true_iff.mp hbase with hb | hb3
      · rcases Bool.or_eq_true_iff.mp hb with hb1 | hb2
        · rw [strStartsWith_append_of (lowerStr u) hb1]
          simp
        · rw [strStartsWith_append_of (lowerStr u) hb2]
          simp
      · rw [strStartsWith_append_of (lowerStr u) hb3]
        simp

/-- Rewrite one raw asset reference to an absolute `AssetRef`. -/
def rewriteAsset (base : String) (ra : String × AssetKind × Bool) : AssetRef :=
  { url := resolveUrl base ra.1, kind := ra.2.1, decorative := ra.2.2 }

mutual

/-- Modelled from the spec: capture of a single rendered element — elements
with zero rendered area or display:none are pruned, every asset reference is
rewritten to an absolute URL against the page base. -/
def captureNode (base : String) : RawNode → Option StyleNode
  | .node tag text props rawAssets area dnone children =>
    if area = 0 || dnone then none
    else some (.node tag text props (rawAssets.map (rewriteAsset base))
      (captureChildren base children))

/-- Modelled from the spec: capture of a child list, dropping pruned nodes. -/
def captureChildren (base : String) : List RawNode → List StyleNode
  | [] => []
  | c :: cs =>
    match captureNode base c with
    | none => captureChildren base cs
    | some n => n :: captureChildren base cs

end

mutual

/-- All asset references attached anywhere in a StyleNode tree. -/
def nodeAssetsN : StyleNode → List AssetRef
  | .node _ _ _ assets children => assets ++ nodeAssetsL children

/-- All asset references attached anywhere in a list of StyleNode trees. -/
def nodeAssetsL : List StyleNode → List AssetRef
  | [] => []
  | c :: cs => nodeAssetsN c ++ nodeAssetsL cs

end

/-- Placeholder root when the whole raw tree was pruned. -/
def emptyRoot : StyleNode := .node "html" "" [] [] []

/-- Modelled from the spec: the Capture Engine output — a VisualManifest with
the captured tree and the page-level asset set, all URLs made absolute. -/
def capture (base : String) (raw : RawNode) (title : String)
    (rawStylesheets : List String) (rawPageAssets : List (String × AssetKind × Bool)) :
    VisualManifest :=
  { title := title
    viewport := (1280, 800)
    rawStylesheets := rawStylesheets
    root := (captureNode base raw).getD emptyRoot
    assets := rawPageAssets.map (rewriteAsset base) }

/-- Every AssetRef reachable from a manifest: tree attachments plus the
page-level ordered set. -/
def manifestAssets (m : VisualManifest) : List AssetRef :=
  nodeAssetsN m.root ++ m.assets

mutual

theorem captureNode_assets_absolute (base : String) (hbase : isAbsoluteUrl base = true) :
    ∀ (r : RawNode) (n : StyleNode), captureNode base r = some n →
      ∀ a ∈ nodeAssetsN n, isAbsoluteUrl a.url = true
  | .node tag text props rawAssets area dnone children, n, hc, a, ha => by
    unfold captureNode at hc
    by_cases hp : (area = 0 || dnone) = true
    · rw [if_pos hp] at hc
      exact absurd hc (by simp)
    · rw [if_neg hp] at hc
      have hn := Option.some.inj hc
      subst hn
      unfold nodeAssetsN at ha
      rw [List.mem_append] at ha
      cases ha with
      | inl h1 =>
        obtain ⟨ra, _, hra⟩ := List.mem_map.mp h1
        rw [← hra]
        exact resolveUrl_absolute ra.1 hbase
      | inr h2 =>
        exact captureChildren_assets_absolute base hbase children a h2

theorem captureChildren_assets_absolute (base : String) (hbase : isAbsoluteUrl base = true) :
    ∀ (rs : List RawNode), ∀ a ∈ nodeAssetsL (captureChildren base rs),
      isAbsoluteUrl a.url = true
  | [], a, ha => by simp [captureChildren, nodeAssetsL] at ha
  | c :: cs, a, ha => by
    unfold captureChildren at ha
    cases hcn : captureNode base c with
    | none =>
      rw [hcn] at ha
      exact captureChildren_assets_absolute base hbase cs a ha
    | some n =>
      rw [hcn] at ha
      unfold nodeAssetsL at ha
      rw [List.mem_append] at ha
      cases ha with
      | inl h => exact captureNode_assets_absolute base hbase c n hcn a h
      | inr h => exact captureChildren_assets_absolute base hbase cs a h

end

/-! ### Error taxonomy (§7), modelled from the spec -/

/-- Modelled from the spec: the fatal (caller-visible) error kinds —
capture-phase and consolidation/assembly-phase failures. -/
inductive FatalError where
  | navigationError
  | blockedError
  | renderTimeoutError
  | emptyManifestError
  | bundleTooLargeError
deriving DecidableEq

/-! ### Consolidator (§4.2), modelled from the spec -/

/-- Modelled from the spec: the ConsolidatedBundle — normalized CSS text, the
HTML skeleton, the inner body markup kept for the deterministic fallback, the
top-level layout nodes kept structured for the Prompt Assembler, and the
AssetRef set passed through unchanged. -/
structure ConsolidatedBundle where
  css : String
  bodyHtml : String
  skeletonHtml : String
  nodes : List StyleNode
  assets : List AssetRef

/-- Serialize a property set into one CSS declaration block. -/
def propsCss (props : List (String × String)) : String :=
  String.join (props.map (fun p => p.1 ++ ":" ++ p.2 ++ ";"))

/-- Lookup a property-set key in the dedup class table. -/
def lookupKey : List (String × Nat) → String → Option Nat
  | [], _ => none
  | e :: es, key => if e.1 == key then some e.2 else lookupKey es key

mutual

/-- Modelled from the spec: serialize one StyleNode into skeleton markup,
assigning a synthetic collision-free class per distinct property set
(first occurrence wins, document order), threading the dedup table. -/
def consolidateNode : List (String × Nat) → StyleNode → String × List (String × Nat)
  | st, .node tag text props _ children =>
    let key := propsCss props
    let idxSt :=
      match lookupKey st key with
      | some i => (i, st)
      | none => (st.length, st ++ [(key, st.length)])
    let inner := consolidateChildren idxSt.2 children
    ("<" ++ tag ++ " class=\"c" ++ Nat.repr idxSt.1 ++ "\">" ++ text ++ inner.1 ++
      "</" ++ tag ++ ">", inner.2)

/-- Modelled from the spec: serialize a child list in document order. -/
def consolidateChildren : List (String × Nat) → List StyleNode → String × List (String × Nat)
  | st, [] => ("", st)
  | st, c :: cs =>
    let h := consolidateNode st c
    let rest := consolidateChildren h.2 cs
    (h.1 ++ rest.1, rest.2)

end

/-- Emit the dedup table as one stylesheet block, rules in first-occurrence
(document) order. -/
def cssOfTable (st : List (String × Nat)) : String :=
  String.join (st.map (fun e => ".c" ++ Nat.repr e.2 ++ "\x7b" ++ e.1 ++ "\x7d"))

mutual

/-- Modelled from the spec: count of visually significant nodes (text-bearing,
asset-bearing or image elements) used for the EmptyManifestError check. -/
def significantN : StyleNode → Nat
  | .node tag text _ assets children =>
    (if !(jsTrim text == "") || !assets.isEmpty || tag == "img" then 1 else 0) +
      significantL children

/-- Significant-node count of a child list. -/
def significantL : List StyleNode → Nat
  | [] => 0
  | c :: cs => significantN c + significantL cs

end

/-- Modelled from the spec: the Consolidator — serialize the StyleNode tree
into a skeleton, emit one deduplicated stylesheet, pass the AssetRef set
through unchanged. A pure function of the manifest. -/
def consolidate (m : VisualManifest) : ConsolidatedBundle :=
  let body := consolidateChildren [] m.root.childNodes
  { css := cssOfTable body.2
    bodyHtml := body.1
    skeletonHtml := "<html><head></head><body>" ++ body.1 ++ "</body></html>"
    nodes := m.root.childNodes
    assets := nodeAssetsN m.root ++ m.assets }

/-- Modelled from the spec: the Consolidator contract — fails with
`EmptyManifestError` when the manifest has no visually significant nodes. -/
def consolidateE (m : VisualManifest) : Except FatalError ConsolidatedBundle :=
  if significantN m.root = 0 then .error .emptyManifestError
  else .ok (consolidate m)

/-! ### Prompt Assembler (§4.3), modelled from the spec -/

/-- Modelled from the spec: the provider-agnostic GenerationRequest — system
instructions, the serialized bundle payload within a size budget, kept here
with its structured top-level nodes so retention can be stated. -/
structure GenerationRequest where
  instructions : String
  payloadNodes : List StyleNode
  css : String
  assets : List AssetRef

/-- Modelled from the spec: the §4.3 instruction contract text. -/
def instructionsText : String :=
  "Output a complete, self-contained HTML document; preserve every color, " ++
  "gradient, and image reference verbatim; no placeholder content; no " ++
  "explanatory prose outside the document."

mutual

/-- Serialize one node for payload-size accounting. -/
def renderNode : StyleNode → String
  | .node tag text _ _ children =>
    "<" ++ tag ++ ">" ++ text ++ renderNodes children ++ "</" ++ tag ++ ">"

/-- Serialize a node list for payload-size accounting. -/
def renderNodes : List StyleNode → String
  | [] => ""
  | c :: cs => renderNode c ++ renderNodes cs

end

/-- Total character length of the asset URL list. -/
def assetsSize (as : List AssetRef) : Nat :=
  (as.map (fun a => a.url.data.length)).sum

/-- Serialized size of a GenerationRequest. -/
def requestSize (r : GenerationRequest) : Nat :=
  r.instructions.data.length + r.css.data.length + (renderNodes r.payloadNodes).data.length +
    assetsSize r.assets

/-- Modelled from the spec: assembler configuration — the size budget and the
depth beyond which deeply nested low-information subtrees are collapsed. -/
structure AssemblerConfig where
  sizeBudget : Nat
  collapseDepth : Nat

mutual

/-- Modelled from the spec: collapse subtrees nested deeper than the limit;
the node itself (and so every top-level layout node) is always retained. -/
def collapseNode : Nat → StyleNode → StyleNode
  | 0, .node tag text props assets _ => .node tag text props assets []
  | d + 1, .node tag text props assets children =>
    .node tag text props assets (collapseNodes d children)

/-- Collapse every tree of a node list at the given depth limit. -/
def collapseNodes : Nat → List StyleNode → List StyleNode
  | _, [] => []
  | d, c :: cs => collapseNode d c :: collapseNodes d cs

end

/-- Modelled from the spec: drop decorative asset references (truncation
priority stage one). -/
def dropDecorative (as : List AssetRef) : List AssetRef :=
  as.filter (fun a => !a.decorative)

/-- Build the request carried by a given truncation stage. -/
def candidateRequest (b : ConsolidatedBundle) (nodes : List StyleNode)
    (as : List AssetRef) : GenerationRequest :=
  { instructions := instructionsText, payloadNodes := nodes, css := b.css, assets := as }

/-- Modelled from the spec: the Prompt Assembler — emit the full bundle when
it fits; otherwise truncate in fixed priority order (decorative assets first,
then collapse deep subtrees, never dropping top-level layout nodes); raise
`BundleTooLargeError` only when even maximal truncation cannot meet the
budget. -/
def assemble (cfg : AssemblerConfig) (b : ConsolidatedBundle) :
    Except FatalError GenerationRequest :=
  let r0 := candidateRequest b b.nodes b.assets
  if requestSize r0 ≤ cfg.sizeBudget then .ok r0
  else
    let r1 := candidateRequest b b.nodes (dropDecorative b.assets)
    if requestSize r1 ≤ cfg.sizeBudget then .ok r1
    else
      let r2 := candidateRequest b (collapseNodes cfg.collapseDepth b.nodes)
        (dropDecorative b.assets)
      if requestSize r2 ≤ cfg.sizeBudget then .ok r2
      else .error .bundleTooLargeError

lemma collapseNode_tag (d : Nat) (n : StyleNode) : (collapseNode d n).tag = n.tag := by
  cases d <;> cases n <;> rfl

lemma collapseNodes_tags (d : Nat) (ns : List StyleNode) :
    (collapseNodes d ns).map StyleNode.tag = ns.map StyleNode.tag := by
  induction ns with
  | nil => rfl
  | cons c cs ih =>
    unfold collapseNodes
    rw [List.map_cons, List.map_cons, collapseNode_tag, ih]

/-! ### Validator (§4.5), modelled from the spec. The Validator receives the
raw candidate text and parses it (the backend uses an HTML parser library);
parsing is modelled by a small executable tokenizer/tree builder. -/

/-- One lexical token of the candidate markup. -/
inductive HTok where
  | tagOpen (t : String)
  | tagClose (t : String)
  | txt (s : String)

/-- Characters that end a tag name. -/
def isTagNameEnd (c : Char) : Bool :=
  c == '>' || c == ' ' || c == '/'

/-- Drop everything up to and including the next closing angle bracket. -/
def dropThroughGt (cs : List Char) : List Char :=
  match cs.dropWhile (fun c => !(c == '>')) with
  | [] => []
  | _ :: r => r

/-- Tokenize candidate markup (fuel-indexed; called with enough fuel for the
whole input). -/
def tokenize : Nat → List Char → List HTok
  | 0, _ => []
  | _ + 1, [] => []
  | fuel + 1, '<' :: cs =>
    match cs with
    | '/' :: cs2 =>
      let name := lowerStr (String.mk (cs2.takeWhile (fun c => !(c == '>'))))
      .tagClose name :: tokenize fuel (dropThroughGt cs2)
    | '!' :: cs2 => tokenize fuel (dropThroughGt cs2)
    | _ =>
      let name := lowerStr (String.mk (cs.takeWhile (fun c => !(isTagNameEnd c))))
      .tagOpen name :: tokenize fuel (dropThroughGt cs)
  | fuel + 1, cs =>
    let t := cs.takeWhile (fun c => !(c == '<'))
    .txt (String.mk t) :: tokenize fuel (cs.dropWhile (fun c => !(c == '<')))

/-- A parsed document node. -/
inductive HNode where
  | element (tag : String) (children : List HNode)
  | textNode (s : String)

/-- Elements that never carry children. -/
def voidTags : List String := ["img", "br", "hr", "input", "meta", "link"]

/-- Build sibling lists from the token stream (fuel-indexed); a close tag
ends the current sibling list. -/
def parseTokens : Nat → List HTok → List HNode × List HTok
  | 0, ts => ([], ts)
  | _ + 1, [] => ([], [])
  | fuel + 1, .txt s :: ts =>
    let r := parseTokens fuel ts
    (.textNode s :: r.1, r.2)
  | _ + 1, .tagClose _ :: ts => ([], ts)
  | fuel + 1, .tagOpen t :: ts =>
    if voidTags.contains t then
      let r := parseTokens fuel ts
      (.element t [] :: r.1, r.2)
    else
      let rc := parseTokens fuel ts
      let rs := parseTokens fuel rc.2
      (.element t rc.1 :: rs.1, rs.2)

/-- Parse candidate markup into its top-level node list. -/
def parseHtml (s : String) : List HNode :=
  let toks := tokenize (s.data.length + 1) s.data
  (parseTokens (toks.length + 1) toks).1

mutual

/-- Concatenated visible text of a node. -/
def visibleTextN : HNode → String
  | .textNode s => s
  | .element _ cs => visibleTextL cs

/-- Concatenated visible text of a node list. -/
def visibleTextL : List HNode → String
  | [] => ""
  | c :: cs => visibleTextN c ++ visibleTextL cs

end

/-- The element kinds counted as meaningful (mirrors the CloneResult.tsx
iframe check's selector list). -/
def meaningfulTags : List String :=
  ["p", "h1", "h2", "h3", "h4", "h5", "h6", "div", "span", "img", "a", "button",
   "nav", "main", "section", "article"]

mutual

/-- Count of meaningful (text-bearing or image) elements in a node. -/
def meaningfulCountN : HNode → Nat
  | .textNode _ => 0
  | .element t cs =>
    (if meaningfulTags.contains t && (t == "img" || !(jsTrim (visibleTextL cs) == ""))
      then 1 else 0) + meaningfulCountL cs

/-- Count of meaningful elements in a node list. -/
def meaningfulCountL : List HNode → Nat
  | [] => 0
  | c :: cs => meaningfulCountN c + meaningfulCountL cs

end

mutual

/-- Whether an element with the given tag occurs in a node. -/
def hasTagN (t : String) : HNode → Bool
  | .textNode _ => false
  | .element tg cs => tg == t || hasTagL t cs

/-- Whether an element with the given tag occurs in a node list. -/
def hasTagL (t : String) : List HNode → Bool
  | [] => false
  | c :: cs => hasTagN t c || hasTagL t cs

end

/-- Modelled from the spec: Validator configuration — content thresholds,
disallowed content markers, optional strict asset-fraction mode. -/
structure ValidatorConfig where
  minTextLength : Nat
  minMeaningfulElements : Nat
  disallowedMarkers : List String
  strictMode : Bool
  minAssetFraction : Nat

/-- Whether any configured disallowed marker occurs in the candidate text
(case-insensitively). -/
def containsMarker (markers : List String) (s : String) : Bool :=
  markers.any (fun m => strContainsStr (lowerStr s) (lowerStr m))

/-- Strict-mode check: at least the configured percentage of bundle asset
URLs must appear verbatim in the candidate. -/
def assetFractionOk (cfg : ValidatorConfig) (assets : List AssetRef) (raw : String) : Bool :=
  decide (cfg.minAssetFraction * assets.length ≤
    100 * (assets.filter (fun a => strContainsStr raw a.url)).length)

/-- Modelled from the spec: the §4.5 checks over the parsed document — all
must pass to accept. -/
def validateDoc (cfg : ValidatorConfig) (assets : List AssetRef) (raw : String)
    (ns : List HNode) : Bool :=
  hasTagL "html" ns && hasTagL "body" ns &&
  decide (cfg.minTextLength ≤ (visibleTextL ns).data.length) &&
  decide (cfg.minMeaningfulElements ≤ meaningfulCountL ns) &&
  !(containsMarker cfg.disallowedMarkers raw) &&
  (if cfg.strictMode then assetFractionOk cfg assets raw else true)

/-- Modelled from the spec: the Validator on a raw CandidateArtifact text. -/
def validateText (cfg : ValidatorConfig) (assets : List AssetRef) (s : String) : Bool :=
  validateDoc cfg assets s (parseHtml s)

/-! ### Demo fixtures used by the claim witnesses -/

/-- Demo raw capture tree with one relative image URL. -/
def rawDemo : RawNode :=
  .node "div" "hello" [("color", "red")] [("img/logo.png", .image, false)] 100 false []

/-- Demo manifest: a heading, a paragraph and a background-gradient div. -/
def demoRoot : StyleNode :=
  .node "html" "" [] []
    [.node "h1" "Demo heading" [("color", "blue"), ("font-size", "32px")] [] [],
     .node "p" "A paragraph of visible demo text." [("color", "blue")] [] [],
     .node "div" "" [("background-image", "linear-gradient(90deg, red, blue)")] [] []]

/-- Demo manifest wrapper. -/
def mDemo : VisualManifest :=
  { title := "Demo", viewport := (1280, 800), rawStylesheets := [], root := demoRoot,
    assets := [] }

/-- Demo over-budget bundle: one top-level node plus a long decorative asset
URL that stage-one truncation removes. -/
def bDemo : ConsolidatedBundle :=
  { css := ""
    bodyHtml := ""
    skeletonHtml := ""
    nodes := [.node "div" "x" [] [] []]
    assets := [{ url := "https://example.com/decorative-background-artwork-very-long-url.png",
                 kind := .image, decorative := true }] }

/-- Demo assembler configuration sized so the full bundle overflows but
stage-one truncation fits. -/
def cfgDemo : AssemblerConfig :=
  { sizeBudget := instructionsText.data.length + 12, collapseDepth := 3 }

/-- Stage-one truncation of the demo bundle. -/
def r1Demo : GenerationRequest :=
  candidateRequest bDemo bDemo.nodes (dropDecorative bDemo.assets)

/-! ### Generation Orchestrator (§4.4), modelled from the spec -/

/-- Modelled from the spec: outcome of one provider invocation — a transport
failure or a raw candidate text. -/
inductive ProviderOutcome where
  | transportError
  | candidate (text : String)

/-- Modelled from the spec: a configured provider behind the uniform
invoke/identity contract; the invocation may depend on the request, the
escalation level and the attempt index. -/
structure GenProvider where
  identity : String
  invokeAt : GenerationRequest → Nat → Nat → ProviderOutcome

/-- Modelled from the spec: orchestrator policy knobs — the per-provider
transport attempt cap and the escalation-level ceiling. -/
structure OrchestratorConfig where
  attemptCap : Nat
  escalationCeiling : Nat

/-- Outcome of one (provider, escalation level) round of transport attempts. -/
inductive LevelOutcome where
  | accepted (text : String)
  | rejectedCandidate
  | transportCapExhausted

/-- Modelled from the spec: retry the same provider on transport failure up
to the remaining attempt budget; a returned candidate goes to the Validator.
Also counts provider invocations performed. -/
def runAttempts (validate : String → Bool) (req : GenerationRequest) (p : GenProvider)
    (esc : Nat) : Nat → Nat → LevelOutcome × Nat
  | 0, _ => (.transportCapExhausted, 0)
  | fuel + 1, idx =>
    match p.invokeAt req esc idx with
    | .transportError =>
      let r := runAttempts validate req p esc fuel (idx + 1)
      (r.1, r.2 + 1)
    | .candidate t => if validate t then (.accepted t, 1) else (.rejectedCandidate, 1)

/-- Terminal outcome of one provider across escalation levels. -/
inductive ProviderFinal where
  | acceptedP (text : String)
  | providerExhausted

/-- Modelled from the spec: walk the escalation levels of one provider —
Validator rejection escalates while below the ceiling; transport-cap
exhaustion abandons the provider. -/
def runLevels (cfg : OrchestratorConfig) (validate : String → Bool)
    (req : GenerationRequest) (p : GenProvider) : Nat → Nat → ProviderFinal × Nat
  | 0, _ => (.providerExhausted, 0)
  | fuel + 1, esc =>
    match runAttempts validate req p esc cfg.attemptCap 0 with
    | (.accepted t, c) => (.acceptedP t, c)
    | (.transportCapExhausted, c) => (.providerExhausted, c)
    | (.rejectedCandidate, c) =>
      if esc < cfg.escalationCeiling then
        let r := runLevels cfg validate req p fuel (esc + 1)
        (r.1, c + r.2)
      else (.providerExhausted, c)

/-- Terminal outcome of the whole orchestration. -/
inductive OrchResult where
  | ok (text : String) (providerIdentity : String)
  | exhausted

/-- Modelled from the spec: try providers strictly in configured order; the
first Validator-accepted candidate wins; when all providers are exhausted at
all escalation levels, signal exhaustion. Also counts total provider
invocations. -/
def orchestrate (cfg : OrchestratorConfig) (validate : String → Bool)
    (req : GenerationRequest) : List GenProvider → OrchResult × Nat
  | [] => (.exhausted, 0)
  | p :: ps =>
    match runLevels cfg validate req p (cfg.escalationCeiling + 1) 0 with
    | (.acceptedP t, c) => (.ok t p.identity, c)
    | (.providerExhausted, c) =>
      let r := orchestrate cfg validate req ps
      (r.1, c + r.2)

lemma runAttempts_all_transport (validate : String → Bool) (req : GenerationRequest)
    (p : GenProvider) (esc : Nat)
    (hfail : ∀ e i, p.invokeAt req e i = .transportError) :
    ∀ fuel idx, runAttempts validate req p esc fuel idx = (.transportCapExhausted, fuel) := by
  intro fuel
  induction fuel with
  | zero => intro idx; rfl
  | succ n ih =>
    intro idx
    unfold runAttempts
    rw [hfail esc idx]
    simp only
    rw [ih (idx + 1)]

lemma runLevels_all_transport (cfg : OrchestratorConfig) (validate : String → Bool)
    (req : GenerationRequest) (p : GenProvider) (fuel esc : Nat)
    (hfail : ∀ e i, p.invokeAt req e i = .transportError) :
    runLevels cfg validate req p (fuel + 1) esc = (.providerExhausted, cfg.attemptCap) := by
  unfold runLevels
  rw [runAttempts_all_transport validate req p esc hfail cfg.attemptCap 0]

lemma orchestrate_all_transport (cfg : OrchestratorConfig) (validate : String → Bool)
    (req : GenerationRequest) (providers : List GenProvider)
    (hfail : ∀ p ∈ providers, ∀ e i, p.invokeAt req e i = .transportError) :
    orchestrate cfg validate req providers =
      (.exhausted, providers.length * cfg.attemptCap) := by
  induction providers with
  | nil => simp [orchestrate]
  | cons p ps ih =>
    unfold orchestrate
    rw [runLevels_all_transport cfg validate req p cfg.escalationCeiling 0
      (hfail p (List.mem_cons_self p ps))]
    simp only
    rw [ih (fun q hq => hfail q (List.mem_cons_of_mem p hq))]
    simp [List.length_cons, Nat.succ_mul, Nat.add_comm]

lemma runAttempts_accepted_validated (validate : String → Bool) (req : GenerationRequest)
    (p : GenProvider) (esc : Nat) :
    ∀ fuel idx t c, runAttempts validate req p esc fuel idx = (.accepted t, c) →
      validate t = true := by
  intro fuel
  induction fuel with
  | zero => intro idx t c h; exact absurd h (by simp [runAttempts])
  | succ n ih =>
    intro idx t c h
    unfold runAttempts at h
    cases hi : p.invokeAt req esc idx with
    | transportError =>
      rw [hi] at h
      simp only at h
      have h2 := congrArg Prod.fst h
      simp only at h2
      cases hr : runAttempts validate req p esc n (idx + 1) with
      | mk r1 r2 =>
        rw [hr] at h2
        exact ih (idx + 1) t r2 (by rw [hr, ← h2])
    | candidate t2 =>
      rw [hi] at h
      by_cases hv : validate t2 = true
      · simp only [hv, if_true] at h
        have := (LevelOutcome.accepted.inj (congrArg Prod.fst h)).symm
        rw [this]
        exact hv
      · simp only [Bool.not_eq_true] at hv
        simp [hv] at h

lemma runLevels_accepted_validated (cfg : OrchestratorConfig) (validate : String → Bool)
    (req : GenerationRequest) (p : GenProvider) :
    ∀ fuel esc t c, runLevels cfg validate req p fuel esc = (.acceptedP t, c) →
      validate t = true := by
  intro fuel
  induction fuel with
  | zero => intro esc t c h; exact absurd h (by simp [runLevels])
  | succ n ih =>
    intro esc t c h
    unfold runLevels at h
    cases hr : runAttempts validate req p esc cfg.attemptCap 0 with
    | mk lo cnt =>
      rw [hr] at h
      cases lo with
      | accepted t2 =>
        simp only at h
        have := (ProviderFinal.acceptedP.inj (congrArg Prod.fst h)).symm
        rw [this]
        exact runAttempts_accepted_validated validate req p esc cfg.attemptCap 0 t2 cnt hr
      | transportCapExhausted => simp at h
      | rejectedCandidate =>
        simp only at h
        by_cases he : esc < cfg.escalationCeiling
        · rw [if_pos he] at h
          cases hr2 : runLevels cfg validate req p n (esc + 1) with
          | mk pf c2 =>
            rw [hr2] at h
            have h2 := congrArg Prod.fst h
            simp only at h2
            exact ih (esc + 1) t c2 (by rw [hr2, ← h2])
        · rw [if_neg he] at h
          simp at h

lemma orchestrate_ok_validated (cfg : OrchestratorConfig) (validate : String → Bool)
    (req : GenerationRequest) :
    ∀ providers t pid c, orchestrate cfg validate req providers = (.ok t pid, c) →
      validate t = true := by
  intro providers
  induction providers with
  | nil => intro t pid c h; exact absurd h (by simp [orchestrate])
  | cons p ps ih =>
    intro t pid c h
    unfold orchestrate at h
    cases hr : runLevels cfg validate req p (cfg.escalationCeiling + 1) 0 with
    | mk pf cnt =>
      rw [hr] at h
      cases pf with
      | acceptedP t2 =>
        simp only at h
        have := (OrchResult.ok.inj (congrArg Prod.fst h)).1.symm
        rw [this]
        exact runLevels_accepted_validated cfg validate req p (cfg.escalationCeiling + 1) 0
          t2 cnt hr
      | providerExhausted =>
        simp only at h
        cases hr2 : orchestrate cfg validate req ps with
        | mk orp c2 =>
          rw [hr2] at h
          have h2 := congrArg Prod.fst h
          simp only at h2
          exact ih t pid c2 (by rw [hr2, ← h2])

/-! ### Pipeline assembly and deterministic fallback (§6, §7), modelled from
the spec -/

/-- Modelled from the spec: provenance tag of the terminal artifact. -/
inductive Provenance where
  | generated
  | fallback
deriving DecidableEq

/-- Modelled from the spec: the terminal CloneResult exposed across the
pipeline boundary. -/
structure CloneResult where
  html : String
  provenance : Provenance

/-- Modelled from the spec: the deterministic fallback artifact — the
Consolidator's skeleton with the bundle CSS inlined, no generative step. -/
def renderFallback (b : ConsolidatedBundle) : String :=
  "<!DOCTYPE html><html><head><style>" ++ b.css ++ "</style></head><body>" ++
    b.bodyHtml ++ "</body></html>"

lemma renderFallback_ne_empty (b : ConsolidatedBundle) : renderFallback b ≠ "" := by
  unfold renderFallback
  repeat apply append_ne_empty_left
  decide

/-- Configuration of the whole pipeline. -/
structure PipelineConfig where
  asmCfg : AssemblerConfig
  orchCfg : OrchestratorConfig
  vCfg : ValidatorConfig

/-- Modelled from the spec: the pipeline after capture — consolidation and
assembly errors surface to the caller as fatal; an accepted candidate is the
generated result; generation exhaustion falls back to the deterministic
artifact. -/
def pipeline (pc : PipelineConfig) (providers : List GenProvider)
    (captured : Except FatalError VisualManifest) : Except FatalError CloneResult :=
  match captured with
  | .error e => .error e
  | .ok m =>
    match consolidateE m with
    | .error e => .error e
    | .ok bundle =>
      match assemble pc.asmCfg bundle with
      | .error e => .error e
      | .ok req =>
        match orchestrate pc.orchCfg (validateText pc.vCfg bundle.assets) req providers with
        | (.ok t _, _) => .ok { html := t, provenance := .generated }
        | (.exhausted, _) => .ok { html := renderFallback bundle, provenance := .fallback }

/-- Demo provider that deterministically fails at the transport level. -/
def pFailDemo : GenProvider :=
  { identity := "transport-failing", invokeAt := fun _ _ _ => .transportError }

/-- Demo orchestrator configuration. -/
def ocfgDemo : OrchestratorConfig := { attemptCap := 3, escalationCeiling := 2 }

/-- Demo validator configuration; the thresholds mirror the CloneResult.tsx
iframe minimal-content check (50 characters, 5 elements). -/
def vcfgDemo : ValidatorConfig :=
  { minTextLength := 50, minMeaningfulElements := 5,
    disallowedMarkers := ["lorem ipsum"], strictMode := false, minAssetFraction := 50 }

/-- A candidate with full document structure and ample visible text but only
one meaningful element. -/
def candidateSparse : String :=
  "<html><body><p>This paragraph holds well over fifty characters of visible text content.</p></body></html>"

/-- A candidate with full document structure, ample visible text and six
meaningful elements. -/
def candidateRich : String :=
  "<html><body><h1>Demo page</h1><p>This paragraph holds well over fifty characters of visible text.</p><div>alpha</div><span>beta</span><a>gamma</a><img></body></html>"

/-- Demo pipeline configuration with a budget large enough for the demo
manifest. -/
def pcDemo : PipelineConfig :=
  { asmCfg := { sizeBudget := 10000, collapseDepth := 3 },
    orchCfg := ocfgDemo,
    vCfg := vcfgDemo }

lemma validateText_empty (cfg : ValidatorConfig) (assets : List AssetRef) :
    validateText cfg assets "" = false := by
  unfold validateText
  have h : parseHtml "" = [] := rfl
  rw [h]
  unfold validateDoc
  simp [hasTagL]

lemma validateText_ne_empty {cfg : ValidatorConfig} {assets : List AssetRef} {s : String}
    (h : validateText cfg assets s = true) : s ≠ "" := by
  intro hc
  subst hc
  rw [validateText_empty] at h
  exact Bool.false_ne_true h

end Backend

end PixelTwin

namespace PixelTwin

/-! ## Claim theorems for the frontend embeddings -/

/-- C8: the clone form submit handler calls `onSubmit` exactly when the
trimmed input is non-empty, and the URL it passes begins (case-insensitively)
with "http://" or "https://": the trimmed input when it already carries such
a scheme, otherwise "https://" prepended to it. -/
theorem cloneForm_submit_contract (url : String) :
    (CloneForm.handleSubmit url = none ↔ jsTrim url = "") ∧
    (∀ f, CloneForm.handleSubmit url = some f →
      CloneForm.schemeRegexTest f = true ∧
      ((CloneForm.schemeRegexTest (jsTrim url) = true ∧ f = jsTrim url) ∨
       (CloneForm.schemeRegexTest (jsTrim url) = false ∧ f = "https://" ++ jsTrim url))) := by
  constructor
  · unfold CloneForm.handleSubmit
    by_cases h : jsTrim url = "" <;> simp [h]
    by_cases hs : CloneForm.schemeRegexTest (jsTrim url) <;> simp [hs]
  · intro f hf
    unfold CloneForm.handleSubmit at hf
    by_cases h : jsTrim url = ""
    · simp [h] at hf
    · by_cases hs : CloneForm.schemeRegexTest (jsTrim url) = true
      · simp [h, hs] at hf
        subst hf
        exact ⟨hs, Or.inl ⟨hs, rfl⟩⟩
      · simp [h, hs] at hf
        subst hf
        refine ⟨CloneForm.schemeRegexTest_https_prepend (jsTrim url), Or.inr ⟨?_, rfl⟩⟩
        simpa using hs

/-- Witness for C8 at the concrete input "example.com". -/
theorem cloneForm_submit_contract_witness :
    CloneForm.schemeRegexTest "https://example.com" = true ∧
    ((CloneForm.schemeRegexTest (jsTrim "example.com") = true ∧
        "https://example.com" = jsTrim "example.com") ∨
     (CloneForm.schemeRegexTest (jsTrim "example.com") = false ∧
        "https://example.com" = "https://" ++ jsTrim "example.com")) :=
  (cloneForm_submit_contract "example.com").2 "https://example.com" (by decide)

/-- C9: after every completed run of `handleClone`, at most one of
`cloneResult` and `error` is non-null; the success branch produces exactly
the state with the result set and the error cleared, the catch branch the
state with the error set and the result cleared. -/
theorem home_handleClone_exclusive (s : Home.HomeState) (url : String) (o : Home.FetchOutcome) :
    ((Home.handleClone s url o).cloneResult = none ∨
     (Home.handleClone s url o).error = none) ∧
    (∀ r, o = .ok r → Home.handleClone s url o =
      { cloneResult := some r, error := none, isLoading := false, originalUrl := url }) ∧
    (∀ m, o = .err m → Home.handleClone s url o =
      { cloneResult := none, error := some m, isLoading := false, originalUrl := url }) := by
  refine ⟨?_, ?_, ?_⟩
  · cases o <;> simp [Home.handleClone]
  · intro r hr; subst hr; simp [Home.handleClone]
  · intro m hm; subst hm; simp [Home.handleClone]

/-- Witness for C9 at a concrete state and outcome. -/
theorem home_handleClone_exclusive_witness :
    Home.handleClone
      { cloneResult := none, error := some "old", isLoading := false, originalUrl := "" }
      "https://example.com" (.ok { clone_html := "<html></html>", images := [] }) =
      { cloneResult := some { clone_html := "<html></html>", images := [] },
        error := none, isLoading := false, originalUrl := "https://example.com" } :=
  (home_handleClone_exclusive
      { cloneResult := none, error := some "old", isLoading := false, originalUrl := "" }
      "https://example.com" (.ok { clone_html := "<html></html>", images := [] })).2.1
    { clone_html := "<html></html>", images := [] } rfl

/-- C10: a POST whose JSON body lacks a truthy `url` field is answered with
status 400 and body error "URL is required" and the forwarding fetch is never
issued; a parse exception or a forwarding exception is answered with status
500 and body error "Internal server error". -/
theorem streamRoute_post_contract (parsed : Except Unit (Option String))
    (backendFetch : String → Except Unit StreamRoute.BackendReply) :
    (∀ uf, parsed = .ok uf → StreamRoute.isTruthy uf = false →
      StreamRoute.POST parsed backendFetch =
        ({ status := 400, body := .jsonError "URL is required" }, false)) ∧
    (∀ e, parsed = .error e →
      StreamRoute.POST parsed backendFetch =
        ({ status := 500, body := .jsonError "Internal server error" }, false)) ∧
    (∀ uf e, parsed = .ok uf → StreamRoute.isTruthy uf = true →
      backendFetch (uf.getD "") = .error e →
      (StreamRoute.POST parsed backendFetch).1 =
        { status := 500, body := .jsonError "Internal server error" }) := by
  refine ⟨?_, ?_, ?_⟩
  · intro uf hp ht
    subst hp
    simp [StreamRoute.POST, ht]
  · intro e hp
    subst hp
    simp [StreamRoute.POST]
  · intro uf e hp ht hb
    subst hp
    simp [StreamRoute.POST, ht, hb]

/-- Witness for C10: a body with an empty `url` field yields 400 without
forwarding. -/
theorem streamRoute_post_contract_witness :
    StreamRoute.POST (.ok (some "")) (fun _ => .error ()) =
      ({ status := 400, body := .jsonError "URL is required" }, false) :=
  (streamRoute_post_contract (.ok (some "")) (fun _ => .error ())).1 (some "") rfl (by decide)

/-! ## Claim theorems for the modelled backend pipeline -/

/-- C3: every AssetRef.url in a VisualManifest produced by the (spec-modelled)
Capture Engine is an absolute URL; no relative or protocol-relative URL
appears in Capture Engine output. -/
theorem captureEngine_absolute_urls (base title : String) (ss : List String)
    (raw : Backend.RawNode) (pageAssets : List (String × Backend.AssetKind × Bool))
    (hbase : Backend.isAbsoluteUrl base = true) :
    ∀ a ∈ Backend.manifestAssets (Backend.capture base raw title ss pageAssets),
      Backend.isAbsoluteUrl a.url = true := by
  intro a ha
  unfold Backend.manifestAssets Backend.capture at ha
  simp only [List.mem_append] at ha
  cases ha with
  | inl h1 =>
    cases hcn : Backend.captureNode base raw with
    | none =>
      rw [hcn] at h1
      simp [Backend.emptyRoot, Backend.nodeAssetsN, Backend.nodeAssetsL] at h1
    | some n =>
      rw [hcn] at h1
      exact Backend.captureNode_assets_absolute base hbase raw n hcn a (by simpa using h1)
  | inr h2 =>
    obtain ⟨ra, _, hra⟩ := List.mem_map.mp h2
    rw [← hra]
    exact Backend.resolveUrl_absolute ra.1 hbase

/-- Witness for C3: a relative image URL captured against an absolute base
surfaces as an absolute URL. -/
theorem captureEngine_absolute_urls_witness :
    Backend.isAbsoluteUrl
      (Backend.AssetRef.mk "https://example.com/img/logo.png" Backend.AssetKind.image
        false).url = true :=
  captureEngine_absolute_urls "https://example.com/" "demo" [] Backend.rawDemo
    [("//cdn.example.com/app.css", Backend.AssetKind.stylesheet, false)] (by decide)
    (Backend.AssetRef.mk "https://example.com/img/logo.png" Backend.AssetKind.image false)
    (by decide)

/-- C5: the (spec-modelled) Consolidator is deterministic — two runs on the
same VisualManifest yield byte-identical ConsolidatedBundle outputs (equal
character data of the stylesheet and the skeleton, and equal bundles). The
model is a pure function and its class-dedup table is an ordered list walked
in document order, so no nondeterministic ordering can arise. -/
theorem consolidator_deterministic (m1 m2 : Backend.VisualManifest) (h : m1 = m2) :
    (Backend.consolidate m1).css.data = (Backend.consolidate m2).css.data ∧
    (Backend.consolidate m1).skeletonHtml.data = (Backend.consolidate m2).skeletonHtml.data ∧
    Backend.consolidate m1 = Backend.consolidate m2 := by
  subst h
  exact ⟨rfl, rfl, rfl⟩

/-- C7: for every ConsolidatedBundle whose serialized size exceeds the
budget, any GenerationRequest the (spec-modelled) Prompt Assembler emits is
at most the budget and retains every top-level layout node of the bundle;
`BundleTooLargeError` is raised only when even maximal truncation (decorative
assets dropped and deep subtrees collapsed) cannot meet the budget. -/
theorem promptAssembler_truncation (cfg : Backend.AssemblerConfig)
    (b : Backend.ConsolidatedBundle)
    (hover : cfg.sizeBudget <
      Backend.requestSize (Backend.candidateRequest b b.nodes b.assets)) :
    (∀ r, Backend.assemble cfg b = .ok r →
      Backend.requestSize r ≤ cfg.sizeBudget ∧
      r.payloadNodes.map Backend.StyleNode.tag = b.nodes.map Backend.StyleNode.tag) ∧
    (Backend.assemble cfg b = .error .bundleTooLargeError →
      cfg.sizeBudget < Backend.requestSize (Backend.candidateRequest b
        (Backend.collapseNodes cfg.collapseDepth b.nodes)
        (Backend.dropDecorative b.assets))) := by
  constructor
  · intro r hr
    unfold Backend.assemble at hr
    rw [if_neg (by omega)] at hr
    by_cases h1 : Backend.requestSize
        (Backend.candidateRequest b b.nodes (Backend.dropDecorative b.assets)) ≤
        cfg.sizeBudget
    · rw [if_pos h1] at hr
      have he := Except.ok.inj hr
      subst he
      exact ⟨h1, rfl⟩
    · rw [if_neg h1] at hr
      by_cases h2 : Backend.requestSize (Backend.candidateRequest b
          (Backend.collapseNodes cfg.collapseDepth b.nodes)
          (Backend.dropDecorative b.assets)) ≤ cfg.sizeBudget
      · rw [if_pos h2] at hr
        have he := Except.ok.inj hr
        subst he
        exact ⟨h2, Backend.collapseNodes_tags cfg.collapseDepth b.nodes⟩
      · rw [if_neg h2] at hr
        exact absurd hr (by simp)
  · intro he
    unfold Backend.assemble at he
    rw [if_neg (by omega)] at he
    by_cases h1 : Backend.requestSize
        (Backend.candidateRequest b b.nodes (Backend.dropDecorative b.assets)) ≤
        cfg.sizeBudget
    · rw [if_pos h1] at he
      exact absurd he (by simp)
    · rw [if_neg h1] at he
      by_cases h2 : Backend.requestSize (Backend.candidateRequest b
          (Backend.collapseNodes cfg.collapseDepth b.nodes)
          (Backend.dropDecorative b.assets)) ≤ cfg.sizeBudget
      · rw [if_pos h2] at he
        exact absurd he (by simp)
      · omega

set_option maxRecDepth 8192 in
/-- Witness for C7: the demo over-budget bundle yields the stage-one request,
within budget and retaining the top-level node. -/
theorem promptAssembler_truncation_witness :
    Backend.requestSize Backend.r1Demo ≤ Backend.cfgDemo.sizeBudget ∧
    Backend.r1Demo.payloadNodes.map Backend.StyleNode.tag =
      Backend.bDemo.nodes.map Backend.StyleNode.tag :=
  (promptAssembler_truncation Backend.cfgDemo Backend.bDemo (by decide)).1
    Backend.r1Demo (by rfl)

set_option maxRecDepth 100000 in
/-- C6 counterexample: the claim as stated is refuted — this candidate has a
full document structure (html and body elements) and visible text above the
50-character threshold, yet the Validator rejects it, because its meaningful
(text-bearing or image) element count is 1, below the configured minimum of
5. Accepting every structurally complete candidate with enough text would
contradict the rejection rule in the very same claim. -/
theorem validator_minimum_counterexample :
    Backend.hasTagL "html" (Backend.parseHtml Backend.candidateSparse) = true ∧
    Backend.hasTagL "body" (Backend.parseHtml Backend.candidateSparse) = true ∧
    Backend.vcfgDemo.minTextLength ≤
      (Backend.visibleTextL (Backend.parseHtml Backend.candidateSparse)).data.length ∧
    Backend.meaningfulCountL (Backend.parseHtml Backend.candidateSparse) = 1 ∧
    Backend.validateText Backend.vcfgDemo [] Backend.candidateSparse = false := by
  decide

/-- C6 (amended): the (spec-modelled) Validator rejects any candidate whose
meaningful-element count is below the configured minimum, and accepts any
candidate that has a full document structure, visible-text length at or above
the threshold, meaningful-element count at or above the minimum, and none of
the configured disallowed content markers (strict mode off). -/
theorem validator_thresholds (cfg : Backend.ValidatorConfig)
    (assets : List Backend.AssetRef) (hstrict : cfg.strictMode = false) :
    (∀ s, Backend.meaningfulCountL (Backend.parseHtml s) < cfg.minMeaningfulElements →
      Backend.validateText cfg assets s = false) ∧
    (∀ s, Backend.hasTagL "html" (Backend.parseHtml s) = true →
      Backend.hasTagL "body" (Backend.parseHtml s) = true →
      cfg.minTextLength ≤ (Backend.visibleTextL (Backend.parseHtml s)).data.length →
      cfg.minMeaningfulElements ≤ Backend.meaningfulCountL (Backend.parseHtml s) →
      Backend.containsMarker cfg.disallowedMarkers s = false →
      Backend.validateText cfg assets s = true) := by
  constructor
  · intro s h
    unfold Backend.validateText Backend.validateDoc
    have hd : decide (cfg.minMeaningfulElements ≤
        Backend.meaningfulCountL (Backend.parseHtml s)) = false :=
      decide_eq_false (by omega)
    rw [hd]
    simp
  · intro s h1 h2 htext hcount hmark
    unfold Backend.validateText Backend.validateDoc
    rw [h1, h2, hstrict, hmark]
    simp [hcount]
    simpa using htext

set_option maxRecDepth 100000 in
/-- Witness for C6: the rich demo candidate is accepted. -/
theorem validator_thresholds_witness :
    Backend.validateText Backend.vcfgDemo [] Backend.candidateRich = true :=
  (validator_thresholds Backend.vcfgDemo [] rfl).2 Backend.candidateRich
    (by decide) (by decide) (by decide) (by decide) (by decide)

/-- Witness for C5 at the demo manifest. -/
theorem consolidator_deterministic_witness :
    (Backend.consolidate Backend.mDemo).css.data =
      (Backend.consolidate Backend.mDemo).css.data ∧
    (Backend.consolidate Backend.mDemo).skeletonHtml.data =
      (Backend.consolidate Backend.mDemo).skeletonHtml.data ∧
    Backend.consolidate Backend.mDemo = Backend.consolidate Backend.mDemo :=
  consolidator_deterministic Backend.mDemo Backend.mDemo rfl

/-- C4: given N ≥ 1 configured providers that all fail at the transport
level for every escalation level and attempt, the (spec-modelled)
orchestrator performs exactly N × attempt-cap provider invocations and then
signals exhaustion. Termination for every input is structural: `orchestrate`
and its helpers are total functions. -/
theorem orchestrator_exhaustion (cfg : Backend.OrchestratorConfig)
    (validate : String → Bool) (req : Backend.GenerationRequest)
    (providers : List Backend.GenProvider) (_hne : providers ≠ [])
    (hfail : ∀ p ∈ providers, ∀ e i, p.invokeAt req e i = .transportError) :
    Backend.orchestrate cfg validate req providers =
      (.exhausted, providers.length * cfg.attemptCap) :=
  Backend.orchestrate_all_transport cfg validate req providers hfail

/-- Witness for C4: two deterministically transport-failing providers with
attempt cap 3 yield exactly 6 invocations and exhaustion. -/
theorem orchestrator_exhaustion_witness :
    Backend.orchestrate Backend.ocfgDemo (fun _ => false) Backend.r1Demo
      [Backend.pFailDemo, Backend.pFailDemo] = (.exhausted, 6) := by
  have h := orchestrator_exhaustion Backend.ocfgDemo (fun _ => false) Backend.r1Demo
    [Backend.pFailDemo, Backend.pFailDemo] (by simp)
    (by
      intro p hp e i
      simp only [List.mem_cons, List.mem_singleton, List.not_mem_nil, or_false] at hp
      rcases hp with hp | hp <;> (subst hp; rfl))
  rw [h]
  rfl

/-- C2: if every configured provider deterministically raises a transport
error, the pipeline's terminal CloneResult has fallback provenance and its
HTML equals the deterministic fallback rendering — the Consolidator's
skeleton with the bundle CSS inlined — and is non-empty. -/
theorem pipeline_fallback (pc : Backend.PipelineConfig)
    (providers : List Backend.GenProvider) (m : Backend.VisualManifest)
    (hfail : ∀ p ∈ providers, ∀ req e i, p.invokeAt req e i = .transportError)
    (hsig : Backend.significantN m.root ≠ 0)
    (hfit : Backend.requestSize (Backend.candidateRequest (Backend.consolidate m)
      (Backend.consolidate m).nodes (Backend.consolidate m).assets) ≤
      pc.asmCfg.sizeBudget) :
    Backend.pipeline pc providers (.ok m) =
      .ok { html := Backend.renderFallback (Backend.consolidate m),
            provenance := .fallback } ∧
    Backend.renderFallback (Backend.consolidate m) ≠ "" := by
  constructor
  · have h1 : Backend.consolidateE m = .ok (Backend.consolidate m) := by
      unfold Backend.consolidateE
      rw [if_neg hsig]
    have h2 : Backend.assemble pc.asmCfg (Backend.consolidate m) =
        .ok (Backend.candidateRequest (Backend.consolidate m)
          (Backend.consolidate m).nodes (Backend.consolidate m).assets) := by
      unfold Backend.assemble
      rw [if_pos hfit]
    have h3 := Backend.orchestrate_all_transport pc.orchCfg
      (Backend.validateText pc.vCfg (Backend.consolidate m).assets)
      (Backend.candidateRequest (Backend.consolidate m)
        (Backend.consolidate m).nodes (Backend.consolidate m).assets) providers
      (fun p hp e i => hfail p hp _ e i)
    simp only [Backend.pipeline, h1, h2, h3]
  · exact Backend.renderFallback_ne_empty (Backend.consolidate m)

set_option maxRecDepth 100000 in
/-- Witness for C2 at the demo manifest with one transport-failing
provider. -/
theorem pipeline_fallback_witness :
    Backend.pipeline Backend.pcDemo [Backend.pFailDemo] (.ok Backend.mDemo) =
      .ok { html := Backend.renderFallback (Backend.consolidate Backend.mDemo),
            provenance := .fallback } ∧
    Backend.renderFallback (Backend.consolidate Backend.mDemo) ≠ "" :=
  pipeline_fallback Backend.pcDemo [Backend.pFailDemo] Backend.mDemo
    (by
      intro p hp req e i
      simp only [List.mem_singleton] at hp
      subst hp
      rfl)
    (by decide) (by decide)

/-- C1: the caller-visible result of a clone request is either an explicit
structured fatal error or a success whose HTML is non-empty (an accepted
candidate passed the Validator, which rejects empty text; the deterministic
fallback document is non-empty by construction); and on the frontend
boundary the displayed/downloaded processed HTML is never the empty string,
since invalid extracted content is replaced by a non-empty substitute error
document. -/
theorem clone_visible_contract (pc : Backend.PipelineConfig)
    (providers : List Backend.GenProvider)
    (captured : Except Backend.FatalError Backend.VisualManifest) :
    ((∃ e, Backend.pipeline pc providers captured = .error e) ∨
     (∃ r, Backend.pipeline pc providers captured = .ok r ∧ r.html ≠ "")) ∧
    (∀ s, (CloneResultView.processCloneHtml s).1 ≠ "") := by
  constructor
  · cases captured with
    | error e => exact Or.inl ⟨e, rfl⟩
    | ok m =>
      cases hc : Backend.consolidateE m with
      | error e => exact Or.inl ⟨e, by simp [Backend.pipeline, hc]⟩
      | ok bundle =>
        cases ha : Backend.assemble pc.asmCfg bundle with
        | error e => exact Or.inl ⟨e, by simp [Backend.pipeline, hc, ha]⟩
        | ok req =>
          cases ho : Backend.orchestrate pc.orchCfg
              (Backend.validateText pc.vCfg bundle.assets) req providers with
          | mk orr cnt =>
            cases orr with
            | ok t pid =>
              refine Or.inr ⟨{ html := t, provenance := .generated },
                by simp [Backend.pipeline, hc, ha, ho], ?_⟩
              exact Backend.validateText_ne_empty
                (Backend.orchestrate_ok_validated pc.orchCfg
                  (Backend.validateText pc.vCfg bundle.assets) req providers t pid cnt ho)
            | exhausted =>
              exact Or.inr ⟨{ html := Backend.renderFallback bundle, provenance := .fallback },
                by simp [Backend.pipeline, hc, ha, ho],
                Backend.renderFallback_ne_empty bundle⟩
  · exact CloneResultView.processCloneHtml_ne_empty

end PixelTwin
